import Mathlib

/-!
Shallow embedding of the selection-and-caching core of
`src/corewaeasy/corewaeasy.py` (class `CoReManager`):
run selection (`get_runkey_lowest_eccentricity`), eccentricity parsing
(`cast_to_float`), channel selection (`_get_highest_r_extraction_`),
cache rebuild (`_look_for_existing_strains`), metadata reading
(`_read_eccentricity`) and the orchestrator (`download_strains`).

Python floats are idealised as exact rationals plus explicit `nan` / signed
infinity tags: every claim under study depends only on NaN propagation and on
order comparisons of short decimal literals, which the idealisation preserves.
Python `float(str)` / `int(str)` are modelled on their documented grammar
(optional whitespace, sign, `inf`/`infinity`/`nan` case-insensitively, decimal
mantissa with optional fraction and exponent); digit-group underscores and
non-ASCII digits are not modelled, as no claim touches them.
-/

namespace CoreWaEasy

/-- Python exceptions that the modelled code can raise. -/
inductive Err where
  | valueError
  | keyError
  | eofError
  | indexError
  deriving DecidableEq, Repr

instance {ε α : Type} [DecidableEq ε] [DecidableEq α] :
    DecidableEq (Except ε α) := fun x y =>
  match x, y with
  | .ok a, .ok b =>
    if h : a = b then .isTrue (by rw [h]) else .isFalse (by simp [h])
  | .error a, .error b =>
    if h : a = b then .isTrue (by rw [h]) else .isFalse (by simp [h])
  | .ok _, .error _ => .isFalse (by simp)
  | .error _, .ok _ => .isFalse (by simp)

/-- Bind of a successful `Except` computation reduces to the continuation. -/
@[simp] theorem ok_bind {ε α β : Type} (a : α) (f : α → Except ε β) :
    (Except.ok a : Except ε α) >>= f = f a := rfl

/-- Bind of a failed `Except` computation propagates the error. -/
@[simp] theorem error_bind {ε α β : Type} (e : ε) (f : α → Except ε β) :
    (Except.error e : Except ε α) >>= f = .error e := rfl

/-- Idealised Python float: NaN, signed infinity, or an exact rational. -/
inductive PyFloat where
  | nan
  | inf (neg : Bool)
  | num (q : ℚ)
  deriving DecidableEq, Repr

/-- Python `<` on floats: any comparison involving NaN is false. -/
def PyFloat.lt : PyFloat → PyFloat → Bool
  | .num a, .num b => a < b
  | .inf s, .num _ => s
  | .num _, .inf s => !s
  | .inf s, .inf t => s && !t
  | _, _ => false

/-- Model of `numpy.isnan`. -/
def PyFloat.isNaN : PyFloat → Bool
  | .nan => true
  | _ => false

/-- Whitespace characters stripped / split on by Python `str.strip` and
`str.split()` (ASCII part). -/
def isPyWs (c : Char) : Bool :=
  c = ' ' || c = '\t' || c = '\n' || c = '\r' || c = '\x0b' || c = '\x0c'

/-- Strip leading and trailing whitespace from a character list. -/
def pyStrip (cs : List Char) : List Char :=
  ((cs.dropWhile isPyWs).reverse.dropWhile isPyWs).reverse

/-- Greedily consume a run of ASCII digits, returning their values and the
rest of the input. -/
def digRun : List Char → List ℕ × List Char
  | [] => ([], [])
  | c :: r =>
    if c.isDigit then
      let (ds, rest) := digRun r
      ((c.toNat - '0'.toNat) :: ds, rest)
    else ([], c :: r)

/-- Value of a digit list read as a base-10 natural number. -/
def digVal (ds : List ℕ) : ℕ :=
  ds.foldl (fun a d => a * 10 + d) 0

/-- The exact rational `±(ip.fp) × 10^ex`: integer digits `ip`, fractional
digits `fp`, decimal exponent `ex`, built from integer arithmetic and one
`mkRat`. -/
def decimalVal (ip fp : List ℕ) (neg : Bool) (ex : ℤ) : ℚ :=
  let m : ℤ := (digVal ip : ℤ) * (10 : ℤ) ^ fp.length + (digVal fp : ℤ)
  let sm : ℤ := if neg then -m else m
  mkRat (sm * (10 : ℤ) ^ (max ex 0).toNat)
    ((10 : ℕ) ^ (fp.length + (max (-ex) 0).toNat))

/-- Mantissa/exponent part of the Python `float()` grammar:
`digits [. digits] [e [sign] digits]`, at least one mantissa digit. -/
def pyFloatNumeric (cs : List Char) (neg : Bool) : Option PyFloat :=
  let (ip, r1) := digRun cs
  let (fp, r2) :=
    match r1 with
    | '.' :: r => digRun r
    | _ => ([], r1)
  if ip = [] ∧ fp = [] then none
  else
    match r2 with
    | [] => some (.num (decimalVal ip fp neg 0))
    | 'e' :: r3 =>
      let (eneg, r4) :=
        match r3 with
        | '+' :: r => (false, r)
        | '-' :: r => (true, r)
        | _ => (false, r3)
      let (ed, r5) := digRun r4
      if ed = [] ∨ r5 ≠ [] then none
      else
        let ex : ℤ := if eneg then -(digVal ed : ℤ) else (digVal ed : ℤ)
        some (.num (decimalVal ip fp neg ex))
    | _ => none

/-- Body of `float()` after the optional sign: `inf`, `infinity`, `nan`,
or a numeric literal (input already lower-cased). -/
def pyFloatBody (cs : List Char) (neg : Bool) : Option PyFloat :=
  if cs = "inf".toList ∨ cs = "infinity".toList then some (.inf neg)
  else if cs = "nan".toList then some .nan
  else pyFloatNumeric cs neg

/-- Model of Python `float(s)`: `none` means `ValueError`. -/
def pyFloat (s : String) : Option PyFloat :=
  let cs := (pyStrip s.toList).map Char.toLower
  match cs with
  | '+' :: rest => pyFloatBody rest false
  | '-' :: rest => pyFloatBody rest true
  | rest => pyFloatBody rest false

/-- Model of Python `int(s)` on strings: optional whitespace, optional sign,
one or more decimal digits. `none` means `ValueError`. -/
def pyInt (s : String) : Option ℤ :=
  let cs := pyStrip s.toList
  let (neg, r1) :=
    match cs with
    | '+' :: r => (false, r)
    | '-' :: r => (true, r)
    | r => (false, r)
  let (ds, r2) := digRun r1
  if ds = [] ∨ r2 ≠ [] then none
  else some (if neg then -(digVal ds : ℤ) else (digVal ds : ℤ))

/-- Embedding of `CoReManager.cast_to_float`: the empty string and `None` map to NaN,
anything else goes through `float()` (whose failure is `ValueError`).
`Option String` models a Python string-or-None value. -/
def cast_to_float : Option String → Except Err PyFloat
  | none => .ok .nan
  | some s =>
    if s = "" then .ok .nan
    else
      match pyFloat s with
      | some v => .ok v
      | none => .error .valueError

/-- A simulation's run dictionary: insertion-ordered association list from run
key to the run's `md.data` eccentricity entry (`id_eccentricity` is the only
run attribute the modelled code reads). -/
abbrev RunDict := List (String × Option String)

/-- First value bound to `k`, if any (Python dict lookup; keys are unique). -/
def dictFind (d : RunDict) (k : String) : Option (Option String) :=
  (d.find? (fun p => p.1 = k)).map Prod.snd

/-- Python `dict.pop k`: the popped value and the dictionary without `k`
(iteration order of the remaining entries is preserved); `none` models
`KeyError`. -/
def dictPop (d : RunDict) (k : String) : Option (Option String × RunDict) :=
  match dictFind d k with
  | none => none
  | some v => some (v, d.filter (fun p => p.1 ≠ k))

/-- The `for rkey, run in runs.items()` loop of
`get_runkey_lowest_eccentricity`: carry the incumbent `(run_key, ecc)`;
a strictly smaller eccentricity replaces it, a NaN replaces it and stops
the scan. Parse failures (`ValueError` from `float`) propagate. -/
def scanRuns : List (String × Option String) → String → PyFloat →
    Except Err (String × PyFloat)
  | [], runKey, ecc => .ok (runKey, ecc)
  | (rkey, s) :: rest, runKey, ecc => do
    let ecc_i ← cast_to_float s
    if ecc_i.lt ecc then scanRuns rest rkey ecc_i
    else if ecc_i.isNaN then .ok (rkey, ecc_i)
    else scanRuns rest runKey ecc

/-- Embedding of `CoReManager.get_runkey_lowest_eccentricity`, applied to the simulation's
run dictionary: pop the reference run `R01`, return it at once if its
eccentricity is NaN, otherwise scan the remaining runs. -/
def get_runkey_lowest_eccentricity (runs : RunDict) :
    Except Err (String × PyFloat) :=
  match dictPop runs "R01" with
  | none => .error .keyError
  | some (v, rest) => do
    let ecc ← cast_to_float v
    if ecc.isNaN then .ok ("R01", ecc)
    else scanRuns rest "R01" ecc

/-- Python substring test `sub in s`. -/
def containsSub (sub s : String) : Bool :=
  s.toList.tails.any (fun t => sub.toList.isPrefixOf t)

/-- Lexicographic comparison of code-point lists, as Python compares strings
(`Char.toNat` is the code point). -/
def lexLt : List Char → List Char → Bool
  | [], [] => false
  | [], _ :: _ => true
  | _ :: _, [] => false
  | a :: as, b :: bs =>
    if a.toNat < b.toNat then true
    else if b.toNat < a.toNat then false
    else lexLt as bs

/-- Python `max` of two strings: the right argument wins only when strictly
greater (lexicographic comparison on code points). -/
def pyMax (a b : String) : String :=
  if lexLt a.toList b.toList then b else a

/-- Normalise a Python slice index against a sequence of length `len`. -/
def pyNormIdx (len : ℕ) (i : ℤ) : ℕ :=
  if i < 0 then (max 0 (len + i)).toNat else min len i.toNat

/-- Python string slice `s[i:j]` with possibly negative indices. -/
def pySlice (s : String) (i j : ℤ) : String :=
  let cs := s.toList
  String.mk ((cs.take (pyNormIdx cs.length j)).drop (pyNormIdx cs.length i))

/-- Python string slice `s[i:]` with a possibly negative index. -/
def pySliceFrom (s : String) (i : ℤ) : String :=
  String.mk (s.toList.drop (pyNormIdx s.toList.length i))

/-- Lift an optional value into `Except`, raising `e` on `none`. -/
def liftOpt (o : Option α) (e : Err) : Except Err α :=
  match o with
  | some a => .ok a
  | none => .error e

/-- Embedding of `CoReManager._get_highest_r_extraction_`, applied to the key list of the
`rh_22` extraction dictionary: `max` of the keys, sentinel radius 99999 for a
key containing `Inf`, otherwise `int` of the slice `[-9:-4]`. Python `max` of
an empty dictionary raises `ValueError`. -/
def get_highest_r_extraction (keys : List String) : Except Err (String × ℤ) :=
  match keys with
  | [] => .error .valueError
  | k :: ks =>
    let rext_key := ks.foldl pyMax k
    if containsSub "Inf" rext_key then .ok (rext_key, 99999)
    else do
      let rext ← liftOpt (pyInt (pySlice rext_key (-9) (-4))) .valueError
      .ok (rext_key, rext)

/-- Python `str.split()` with no argument: maximal runs of non-whitespace. -/
def wsTokensGo : List Char → List Char → List (List Char)
  | [], acc => if acc = [] then [] else [acc.reverse]
  | c :: r, acc =>
    if isPyWs c then
      if acc = [] then wsTokensGo r []
      else acc.reverse :: wsTokensGo r []
    else wsTokensGo r (c :: acc)

/-- Python `line.split()` on whitespace. -/
def pySplitWs (s : String) : List String :=
  (wsTokensGo s.toList []).map fun cs => String.mk cs

/-- Embedding of `CoReManager._read_eccentricity`, applied to the metadata file's lines:
find the first line containing `id_eccentricity` (raising `EOFError` if none),
take its last whitespace token (`[-1]` on an empty list raises `IndexError`),
and `float` it, turning a `ValueError` into NaN. -/
def read_eccentricity (lines : List String) : Except Err PyFloat :=
  match lines.find? (fun line => containsSub "id_eccentricity" line) with
  | none => .error .eofError
  | some line =>
    match (pySplitWs line).getLast? with
    | none => .error .indexError
    | some ecc_txt =>
      match pyFloat ecc_txt with
      | some ecc => .ok ecc
      | none => .ok .nan

/-- A strain TXT file found by `db_path.rglob`, identified by the path parts
the scan reads: grandparent directory (`parts[-3]`), parent directory
(`parts[-2]`), stem (name without extension), and the content of the sibling
`metadata.txt`, as a line list. -/
structure StrainFile where
  simDir : String
  runDir : String
  stem : String
  metaLines : List String
  deriving DecidableEq, Repr

/-- Python `str.replace` for the single-character pattern the scan uses
(`parts[-3].replace('_', ':')`): replace every occurrence of `c` by `d`. -/
def replaceChar (s : String) (c d : Char) : String :=
  String.mk (s.toList.map (fun x => if x = c then d else x))

/-- One entry of the `downloaded` dictionary rebuilt by the scan:
`file`, `eccentricity`, `r_extraction`. -/
structure Record where
  file : StrainFile
  eccentricity : PyFloat
  r_extraction : ℤ
  deriving DecidableEq, Repr

/-- First value bound to key `k` in an association list (Python dict lookup;
keys are kept unique by `alUpdate`). -/
def alFind {α : Type} (l : List (String × α)) (k : String) : Option α :=
  (l.find? (fun p => p.1 = k)).map Prod.snd

/-- Python dict assignment `d[k] = v`: replace in place if the key exists
(its position is preserved), append otherwise. -/
def alUpdate {α : Type} (l : List (String × α)) (k : String) (v : α) :
    List (String × α) :=
  if l.any (fun p => p.1 = k) then
    l.map (fun p => if p.1 = k then (k, v) else p)
  else l ++ [(k, v)]

/-- The two-level `txt_files` dictionary: simulation key → run key → record. -/
abbrev CacheIndex := List (String × List (String × Record))

/-- Loop body of `CoReManager._look_for_existing_strains` for one scanned
file: derive the simulation key (grandparent directory with `_` replaced by
`:`), the run key (parent directory), the eccentricity (from the sibling
metadata) and the radius (`int` of the stem's last five characters); a file
whose radius is smaller than the one already recorded for the same
(simulation, run) pair is skipped. -/
def lookProcess (acc : CacheIndex) (f : StrainFile) : Except Err CacheIndex := do
  let key := replaceChar f.simDir '_' ':'
  let run := f.runDir
  let ecc ← read_eccentricity f.metaLines
  let rext ← liftOpt (pyInt (pySliceFrom f.stem (-5))) .valueError
  match alFind acc key with
  | none => pure (alUpdate acc key [(run, ⟨f, ecc, rext⟩)])
  | some runMap =>
    match alFind runMap run with
    | none => pure (alUpdate acc key (alUpdate runMap run ⟨f, ecc, rext⟩))
    | some prev => do
      let r0 ← liftOpt (pyInt (pySliceFrom prev.file.stem (-5))) .valueError
      if rext < r0 then pure acc
      else pure (alUpdate acc key (alUpdate runMap run ⟨f, ecc, rext⟩))

/-- Fold of `lookProcess` over the scanned files. The second component lists
the files the scan removed from disk: the source never removes any (a losing
duplicate is merely skipped), so it stays empty. -/
def lookFold : List StrainFile → CacheIndex → List StrainFile →
    Except Err (CacheIndex × List StrainFile)
  | [], acc, deleted => .ok (acc, deleted)
  | f :: fs, acc, deleted => do
    let acc' ← lookProcess acc f
    lookFold fs acc' deleted

/-- Embedding of `CoReManager._look_for_existing_strains`, applied to the files the
directory scan yields, in scan order. -/
def look_for_existing_strains (files : List StrainFile) :
    Except Err (CacheIndex × List StrainFile) :=
  lookFold files [] []

/-- Left-pad with zeros to width `w` (Python `zfill`). -/
def zfill (w : ℕ) (s : String) : String :=
  String.mk (List.replicate (w - s.length) '0') ++ s

/-- Python format 05d: zero-padded width-5 signed decimal. -/
def pyFormat05d (n : ℤ) : String :=
  if n < 0 then "-" ++ zfill 4 (toString n.natAbs) else zfill 5 (toString n.natAbs)

/-- One entry of the in-memory `downloaded` dictionary as written by
`download_strains`: the output TXT path, the eccentricity and the radius. -/
structure DlRecord where
  file : String
  eccentricity : PyFloat
  r_extraction : ℤ
  deriving DecidableEq, Repr

/-- The `downloaded` attribute: simulation key → run key → record. -/
abbrev Downloaded := List (String × List (String × DlRecord))

/-- The external collaborator (`watpy`) as the orchestrator reads it: per
simulation the run dictionary (`cdb.sim[skey].run`, reduced to the
`id_eccentricity` entry each run exposes), per run the key set of the `rh_22`
channel dictionary (`run.data.read_dset()['rh_22']`), and the run's local
path (`run.path`). -/
structure Env where
  runs : String → RunDict
  channels : String → String → List String
  runPath : String → String → String

/-- Side effects of one `download_strains` iteration, in program order:
the `cdb.sync` fetch, the `np.savetxt` write, and the `_clean_h5_data`
purge. -/
inductive Effect where
  | sync (skey : String)
  | write (path : String)
  | cleanH5 (skey : String)
  deriving DecidableEq, Repr

/-- One iteration of the `download_strains` loop for simulation key `skey`:
skip if already downloaded and not overwriting; otherwise sync, select the
run with lowest eccentricity, select the highest extraction, write the TXT
file, replace the simulation's entry in `downloaded` by the single new run
record, and (unless `keepH5`) purge the raw data. -/
def downloadOne (env : Env) (downloaded : Downloaded) (skey : String)
    (keepH5 overwrite : Bool) : Except Err (Downloaded × List Effect) :=
  if !overwrite && (alFind downloaded skey).isSome then .ok (downloaded, [])
  else do
    let (runkey, ecc) ← get_runkey_lowest_eccentricity (env.runs skey)
    let (_rext_key, rext) ← get_highest_r_extraction (env.channels skey runkey)
    let ofile := env.runPath skey runkey ++ "/Rh_l2_m2_r" ++ pyFormat05d rext ++ ".txt"
    let downloaded' := alUpdate downloaded skey [(runkey, ⟨ofile, ecc, rext⟩)]
    .ok (downloaded', [.sync skey, .write ofile] ++
      (if keepH5 then [] else [.cleanH5 skey]))

/-- Embedding of `CoReManager.download_strains` over a list of simulation keys: the loop
body in order, accumulating effects; an uncaught exception aborts the whole
loop, as in the source. -/
def download_strains (env : Env) (downloaded : Downloaded)
    (simkeys : List String) (keepH5 overwrite : Bool) :
    Except Err (Downloaded × List Effect) :=
  match simkeys with
  | [] => .ok (downloaded, [])
  | skey :: rest => do
    let (d1, effs1) ← downloadOne env downloaded skey keepH5 overwrite
    let (d2, effs2) ← download_strains env d1 rest keepH5 overwrite
    .ok (d2, effs1 ++ effs2)

/-- A heap of run dictionaries, for modelling Python's reference semantics in
`get_runkey_lowest_eccentricity`: `cdb.sim[skey].run` is a reference into the
heap, `.copy()` allocates a fresh dictionary, `.pop` mutates the dictionary
it is called on. -/
abbrev Heap := List RunDict

/-- Heap operation for `d.copy()`: allocate a duplicate of the dictionary at reference `r`. -/
def heapCopy (h : Heap) (r : ℕ) : Heap × ℕ :=
  (h ++ [h.getD r []], h.length)

/-- Heap operation for `d.pop k` at reference `r`: return the popped value and
mutate that dictionary in place; `none` models `KeyError`. -/
def heapPop (h : Heap) (r : ℕ) (k : String) : Heap × Option (Option String) :=
  let d := h.getD r []
  match dictFind d k with
  | none => (h, none)
  | some v => (h.set r (d.filter (fun p => p.1 ≠ k)), some v)

/-- Embedding of `CoReManager.get_runkey_lowest_eccentricity` with the mutation made
explicit: `runs = self.cdb.sim[skey].run.copy()` copies the dictionary at
reference `r`, `runs.pop('R01')` mutates only the copy, and the scan reads
the copy. Returns the final heap with the result. -/
def getRunkeyLowestEccOnHeap (h : Heap) (r : ℕ) :
    Heap × Except Err (String × PyFloat) :=
  let (h1, rc) := heapCopy h r
  let (h2, v?) := heapPop h1 rc "R01"
  match v? with
  | none => (h2, .error .keyError)
  | some v =>
    (h2, do
      let ecc ← cast_to_float v
      if ecc.isNaN then .ok ("R01", ecc)
      else scanRuns (h2.getD rc []) "R01" ecc)

/-- Agreement of `lexLt` with the lexicographic order on character lists. -/
theorem lexLt_iff_Lex : ∀ (as bs : List Char),
    lexLt as bs = true ↔ List.Lex (fun x y => x < y) as bs
  | [], [] => by
    simp only [lexLt, Bool.false_eq_true, false_iff]
    exact List.Lex.not_nil_right _ _
  | [], _ :: _ => by
    simp only [lexLt, true_iff]
    exact List.Lex.nil
  | _ :: _, [] => by
    simp only [lexLt, Bool.false_eq_true, false_iff]
    exact List.Lex.not_nil_right _ _
  | a :: as, b :: bs => by
    unfold lexLt
    rcases lt_trichotomy a b with h | h | h
    · have hn : a.toNat < b.toNat := h
      rw [if_pos hn]
      simp only [true_iff]
      exact List.Lex.rel h
    · subst h
      have hn : ¬ a.toNat < a.toNat := lt_irrefl _
      rw [if_neg hn, if_neg hn, lexLt_iff_Lex as bs]
      exact List.Lex.cons_iff.symm
    · have h1 : ¬ a.toNat < b.toNat := fun hc => lt_asymm h hc
      have h2 : b.toNat < a.toNat := h
      rw [if_neg h1, if_pos h2]
      simp only [Bool.false_eq_true, false_iff]
      intro hlex
      cases hlex with
      | rel hr => exact lt_asymm h hr
      | cons _ => exact lt_irrefl a h

/-- Agreement of `lexLt` on `toList` with the strict order on strings. -/
theorem lexLt_iff_lt (a b : String) : lexLt a.toList b.toList = true ↔ a < b := by
  rw [String.lt_iff_toList_lt]
  exact lexLt_iff_Lex a.toList b.toList

theorem le_pyMax_left (a b : String) : a ≤ pyMax a b := by
  unfold pyMax
  split
  case isTrue h => exact le_of_lt ((lexLt_iff_lt a b).mp h)
  case isFalse h => exact le_refl a

theorem le_pyMax_right (a b : String) : b ≤ pyMax a b := by
  unfold pyMax
  split
  case isTrue h => exact le_refl b
  case isFalse h => exact le_of_not_lt (fun hc => h ((lexLt_iff_lt a b).mpr hc))

theorem pyMax_eq_or (a b : String) : pyMax a b = a ∨ pyMax a b = b := by
  unfold pyMax
  split
  · exact Or.inr rfl
  · exact Or.inl rfl

theorem foldl_pyMax_mem (k : String) (ks : List String) :
    ks.foldl pyMax k ∈ k :: ks := by
  induction ks generalizing k with
  | nil => simp
  | cons b ks ih =>
    rw [List.foldl_cons]
    rcases List.mem_cons.mp (ih (pyMax k b)) with h | h
    · rcases pyMax_eq_or k b with h2 | h2 <;> rw [h, h2] <;> simp
    · exact List.mem_cons_of_mem _ (List.mem_cons_of_mem _ h)

theorem le_foldl_pyMax (k : String) (ks : List String) :
    ∀ x ∈ k :: ks, x ≤ ks.foldl pyMax k := by
  induction ks generalizing k with
  | nil =>
    intro x hx
    rw [List.mem_singleton] at hx
    subst hx
    exact le_refl x
  | cons b ks ih =>
    intro x hx
    rw [List.foldl_cons]
    rcases List.mem_cons.mp hx with h | h
    · subst h
      exact le_trans (le_pyMax_left x b) (ih (pyMax x b) _ (by simp))
    · rcases List.mem_cons.mp h with h2 | h2
      · subst h2
        exact le_trans (le_pyMax_right k x) (ih (pyMax k x) _ (by simp))
      · exact ih (pyMax k b) x (List.mem_cons_of_mem _ h2)

/-- Claim C3: on a non-empty channel set, `_get_highest_r_extraction_` picks
the lexicographically maximal name; a name containing `Inf` gets the sentinel
radius 99999, otherwise the radius is `int` of the slice `[-9:-4]` of the
name. -/
theorem claim3_highest_extraction (k : String) (ks : List String) :
    (ks.foldl pyMax k ∈ k :: ks ∧ ∀ x ∈ k :: ks, x ≤ ks.foldl pyMax k) ∧
    (containsSub "Inf" (ks.foldl pyMax k) = true →
      get_highest_r_extraction (k :: ks) = .ok (ks.foldl pyMax k, 99999)) ∧
    (∀ r : ℤ, containsSub "Inf" (ks.foldl pyMax k) = false →
      pyInt (pySlice (ks.foldl pyMax k) (-9) (-4)) = some r →
      get_highest_r_extraction (k :: ks) = .ok (ks.foldl pyMax k, r)) := by
  refine ⟨⟨foldl_pyMax_mem k ks, le_foldl_pyMax k ks⟩, ?_, ?_⟩
  · intro hinf
    simp [get_highest_r_extraction, hinf]
  · intro r hinf hparse
    simp [get_highest_r_extraction, hinf, hparse, liftOpt]

/-- Witness for C3: the spec's two example channel sets. -/
theorem claim3_witness :
    get_highest_r_extraction ["Rh_l2_m2_r00100.txt", "Rh_l2_m2_r00250.txt"] =
      .ok ("Rh_l2_m2_r00250.txt", 250) ∧
    get_highest_r_extraction ["Rh_l2_m2_r00100.txt", "Rh_l2_m2_rInf.txt"] =
      .ok ("Rh_l2_m2_rInf.txt", 99999) := by
  constructor
  · have h := (claim3_highest_extraction "Rh_l2_m2_r00100.txt"
      ["Rh_l2_m2_r00250.txt"]).2.2 250 (by decide) (by decide)
    exact h.trans (by decide)
  · have h := (claim3_highest_extraction "Rh_l2_m2_r00100.txt"
      ["Rh_l2_m2_rInf.txt"]).2.1 (by decide)
    exact h.trans (by decide)

/-- In the scan, a numeric incumbent survives any stretch of numeric-valued
runs, and the first NaN-valued run then wins outright, ending the scan. -/
theorem scanRuns_numeric_prefix_nan (pre : List (String × Option String))
    (k : String) (s : Option String) (post : List (String × Option String)) :
    ∀ (k0 : String) (q0 : ℚ),
    (∀ p ∈ pre, ∃ qp : ℚ, cast_to_float p.2 = .ok (.num qp)) →
    cast_to_float s = .ok .nan →
    scanRuns (pre ++ (k, s) :: post) k0 (.num q0) = .ok (k, .nan) := by
  induction pre with
  | nil =>
    intro k0 q0 _ hnan
    rw [List.nil_append]
    conv_lhs => rw [scanRuns]
    rw [hnan]
    simp [PyFloat.lt, PyFloat.isNaN]
  | cons p pre ih =>
    intro k0 q0 hpre hnan
    obtain ⟨kp, sp⟩ := p
    obtain ⟨qp, hp⟩ := hpre (kp, sp) (by simp)
    have hp' : cast_to_float sp = .ok (.num qp) := hp
    rw [List.cons_append]
    conv_lhs => rw [scanRuns]
    rw [hp']
    simp only [ok_bind]
    have hrest : ∀ p ∈ pre, ∃ qp : ℚ, cast_to_float p.2 = .ok (.num qp) :=
      fun x hx => hpre x (List.mem_cons_of_mem _ hx)
    split
    · exact ih kp qp hrest hnan
    · simp only [PyFloat.isNaN, Bool.false_eq_true, if_false]
      exact ih k0 q0 hrest hnan

/-- Claim C1: when the reference run is numeric, the first NaN-valued run in
the remaining iteration order becomes the result and the scan stops, even
when runs before it strictly improved on the reference; in particular
(0.05, 0.01, NAN) yields the NAN run. -/
theorem claim1_nan_short_circuit (runs : RunDict) (v : Option String)
    (pre : List (String × Option String)) (k : String) (s : Option String)
    (post : List (String × Option String)) (q0 : ℚ)
    (hpop : dictPop runs "R01" = some (v, pre ++ (k, s) :: post))
    (href : cast_to_float v = .ok (.num q0))
    (hpre : ∀ p ∈ pre, ∃ qp : ℚ, cast_to_float p.2 = .ok (.num qp))
    (hnan : cast_to_float s = .ok .nan) :
    get_runkey_lowest_eccentricity runs = .ok (k, .nan) := by
  unfold get_runkey_lowest_eccentricity
  rw [hpop]
  simp only [ok_bind]
  rw [href]
  simp only [ok_bind, PyFloat.isNaN, Bool.false_eq_true, if_false]
  exact scanRuns_numeric_prefix_nan pre k s post "R01" q0 hpre hnan

/-- Witness for C1: the spec's example — R02 strictly improves on R01, yet
R03's NAN wins. -/
theorem claim1_witness :
    get_runkey_lowest_eccentricity
      [("R01", some "0.05"), ("R02", some "0.01"), ("R03", some "NAN")] =
      .ok ("R03", .nan) :=
  claim1_nan_short_circuit _ (some "0.05") [("R02", some "0.01")] "R03"
    (some "NAN") [] (mkRat 5 100) (by decide) (by decide)
    (by
      intro p hp
      rw [List.mem_singleton] at hp
      subst hp
      exact ⟨mkRat 1 100, by decide⟩)
    (by decide)

/-- Claim C4: if the reference run R01's eccentricity string parses to NaN
(as the empty string, `None`, or `"NAN"` do), `get_runkey_lowest_eccentricity`
returns `(R01, NaN)` immediately; the remaining runs are never inspected — the
result holds for every remainder, even one whose eccentricity string would
fail to parse. -/
theorem claim4_reference_nan_immediate (runs : RunDict) (v : Option String)
    (rest : RunDict) (hpop : dictPop runs "R01" = some (v, rest))
    (hnan : cast_to_float v = .ok .nan) :
    get_runkey_lowest_eccentricity runs = .ok ("R01", .nan) := by
  unfold get_runkey_lowest_eccentricity
  rw [hpop]
  simp [hnan, PyFloat.isNaN]

/-- Witness for C4: reference `"NAN"`, second run with an unparsable
eccentricity string that would raise `ValueError` if it were read. -/
theorem claim4_witness :
    get_runkey_lowest_eccentricity
      [("R01", some "NAN"), ("R02", some "garbage")] = .ok ("R01", .nan) :=
  claim4_reference_nan_immediate _ (some "NAN") [("R02", some "garbage")]
    (by decide) (by decide)

/-- Claim C5: `cast_to_float` sends the empty string and `None` to NaN, sends
any string accepted by `float()` to its value, and raises `ValueError`
exactly when the input is a non-empty, non-null string that `float()`
rejects. -/
theorem claim5_cast_to_float :
    cast_to_float none = .ok .nan ∧
    cast_to_float (some "") = .ok .nan ∧
    (∀ s v, pyFloat s = some v → cast_to_float (some s) = .ok v) ∧
    (∀ s, cast_to_float (some s) = .error .valueError ↔
      s ≠ "" ∧ pyFloat s = none) := by
  refine ⟨rfl, rfl, ?_, ?_⟩
  · intro s v h
    by_cases hs : s = ""
    · subst hs
      simp [show pyFloat "" = none from rfl] at h
    · simp [cast_to_float, hs, h]
  · intro s
    by_cases hs : s = ""
    · subst hs
      simp [cast_to_float]
    · cases hp : pyFloat s <;> simp [cast_to_float, hs, hp]

/-- Witness for C5: a parsed literal and a rejected string. -/
theorem claim5_witness :
    cast_to_float (some "0.25") = .ok (.num (mkRat 1 4)) ∧
    (cast_to_float (some "abc") = .error .valueError ↔
      "abc" ≠ "" ∧ pyFloat "abc" = none) :=
  ⟨claim5_cast_to_float.2.2.1 "0.25" (.num (mkRat 1 4)) (by decide),
   claim5_cast_to_float.2.2.2 "abc"⟩

/-- Claim C6: `_read_eccentricity` raises (`EOFError`) when no line contains
the `id_eccentricity` tag, and returns NaN (rather than raising) when the
first tagged line's last whitespace token fails to parse as a float. -/
theorem claim6_read_eccentricity (lines : List String) :
    ((∀ l ∈ lines, containsSub "id_eccentricity" l = false) →
      read_eccentricity lines = .error .eofError) ∧
    (∀ line tok,
      lines.find? (fun l => containsSub "id_eccentricity" l) = some line →
      (pySplitWs line).getLast? = some tok →
      pyFloat tok = none →
      read_eccentricity lines = .ok .nan) := by
  constructor
  · intro hall
    have hnone : lines.find? (fun l => containsSub "id_eccentricity" l) = none := by
      rw [List.find?_eq_none]
      intro x hx
      simp [hall x hx]
    simp [read_eccentricity, hnone]
  · intro line tok hfind hlast hparse
    simp [read_eccentricity, hfind, hlast, hparse]

/-- Witness for C6: a file with no tagged line raises, a file whose tagged
line ends in a non-numeric token yields NaN. -/
theorem claim6_witness :
    read_eccentricity ["# comment"] = .error .eofError ∧
    read_eccentricity ["id_eccentricity xyz"] = .ok .nan :=
  ⟨(claim6_read_eccentricity ["# comment"]).1 (by decide),
   (claim6_read_eccentricity ["id_eccentricity xyz"]).2
     "id_eccentricity xyz" "xyz" (by decide) (by decide) (by decide)⟩

/-- Claim C8: in the scan of `get_runkey_lowest_eccentricity`, a run whose
numeric eccentricity equals the incumbent's value never replaces it — the
step leaves the incumbent pair untouched, so ties go to the run encountered
first. -/
theorem claim8_tie_keeps_incumbent (k : String) (s : Option String)
    (rest : List (String × Option String)) (k0 : String) (q : ℚ)
    (h : cast_to_float s = .ok (.num q)) :
    scanRuns ((k, s) :: rest) k0 (.num q) = scanRuns rest k0 (.num q) := by
  conv_lhs => rw [scanRuns]
  rw [h]
  simp [PyFloat.lt, PyFloat.isNaN]

/-- Witness for C8: a tie at eccentricity 0.5 keeps the incumbent `R01`. -/
theorem claim8_witness :
    scanRuns [("R02", some "0.5")] "R01" (.num (mkRat 1 2)) =
      scanRuns [] "R01" (.num (mkRat 1 2)) :=
  claim8_tie_keeps_incumbent "R02" (some "0.5") [] "R01" (mkRat 1 2) (by decide)

@[simp] theorem pure_ok {ε α : Type} (a : α) : (pure a : Except ε α) = .ok a := rfl

@[simp] theorem alFind_nil {α : Type} (k : String) :
    alFind ([] : List (String × α)) k = none := rfl

@[simp] theorem alFind_cons_self {α : Type} (l : List (String × α))
    (k : String) (v : α) : alFind ((k, v) :: l) k = some v := by
  simp [alFind]

theorem alFind_cons_ne {α : Type} (l : List (String × α)) (p : String × α)
    (k : String) (h : p.1 ≠ k) : alFind (p :: l) k = alFind l k := by
  simp [alFind, List.find?_cons, h]

@[simp] theorem alUpdate_nil {α : Type} (k : String) (v : α) :
    alUpdate ([] : List (String × α)) k v = [(k, v)] := by
  simp [alUpdate]

@[simp] theorem alUpdate_singleton {α : Type} (k : String) (v w : α) :
    alUpdate [(k, v)] k w = [(k, w)] := by
  simp [alUpdate]

/-- Claim C2: two scanned files for the same (simulation, run) pair with
distinct radii leave exactly one record, the one for the larger-radius file,
in either scan order; the losing file is not deleted. -/
theorem claim2_cache_conflict_larger_radius (f1 f2 : StrainFile)
    (e1 e2 : PyFloat) (r1 r2 : ℤ)
    (hsim : f2.simDir = f1.simDir) (hrun : f2.runDir = f1.runDir)
    (h1 : read_eccentricity f1.metaLines = .ok e1)
    (h2 : read_eccentricity f2.metaLines = .ok e2)
    (hr1 : pyInt (pySliceFrom f1.stem (-5)) = some r1)
    (hr2 : pyInt (pySliceFrom f2.stem (-5)) = some r2)
    (hlt : r1 < r2) :
    look_for_existing_strains [f1, f2] =
      .ok ([(replaceChar f1.simDir '_' ':', [(f1.runDir, ⟨f2, e2, r2⟩)])], []) ∧
    look_for_existing_strains [f2, f1] =
      .ok ([(replaceChar f1.simDir '_' ':', [(f1.runDir, ⟨f2, e2, r2⟩)])], []) := by
  constructor
  · simp [look_for_existing_strains, lookFold, lookProcess, liftOpt,
      hsim, hrun, h1, h2, hr1, hr2, not_lt.mpr hlt.le]
  · simp [look_for_existing_strains, lookFold, lookProcess, liftOpt,
      hsim, hrun, h1, h2, hr1, hr2, hlt]

/-- Witness for C2: radii 100 and 250 for the same pair, both orders. -/
theorem claim2_witness :
    look_for_existing_strains
      [⟨"BAM_0001", "R01", "Rh_l2_m2_r00100", ["id_eccentricity 0.01"]⟩,
       ⟨"BAM_0001", "R01", "Rh_l2_m2_r00250", ["id_eccentricity 0.01"]⟩] =
      .ok ([("BAM:0001", [("R01",
        ⟨⟨"BAM_0001", "R01", "Rh_l2_m2_r00250", ["id_eccentricity 0.01"]⟩,
         .num (mkRat 1 100), 250⟩)])], []) ∧
    look_for_existing_strains
      [⟨"BAM_0001", "R01", "Rh_l2_m2_r00250", ["id_eccentricity 0.01"]⟩,
       ⟨"BAM_0001", "R01", "Rh_l2_m2_r00100", ["id_eccentricity 0.01"]⟩] =
      .ok ([("BAM:0001", [("R01",
        ⟨⟨"BAM_0001", "R01", "Rh_l2_m2_r00250", ["id_eccentricity 0.01"]⟩,
         .num (mkRat 1 100), 250⟩)])], []) := by
  have h := claim2_cache_conflict_larger_radius
    ⟨"BAM_0001", "R01", "Rh_l2_m2_r00100", ["id_eccentricity 0.01"]⟩
    ⟨"BAM_0001", "R01", "Rh_l2_m2_r00250", ["id_eccentricity 0.01"]⟩
    (.num (mkRat 1 100)) (.num (mkRat 1 100)) 100 250
    (by decide) (by decide) (by decide) (by decide) (by decide) (by decide)
    (by decide)
  exact ⟨h.1.trans (by decide), h.2.trans (by decide)⟩

/-- Claim C9: two scanned files for the same (simulation, run) pair with
equal radii — only strictly smaller radii are skipped, so the later-scanned
file replaces the record; the result depends on scan order. -/
theorem claim9_equal_radius_later_wins (f1 f2 : StrainFile)
    (e1 e2 : PyFloat) (r : ℤ)
    (hsim : f2.simDir = f1.simDir) (hrun : f2.runDir = f1.runDir)
    (h1 : read_eccentricity f1.metaLines = .ok e1)
    (h2 : read_eccentricity f2.metaLines = .ok e2)
    (hr1 : pyInt (pySliceFrom f1.stem (-5)) = some r)
    (hr2 : pyInt (pySliceFrom f2.stem (-5)) = some r) :
    look_for_existing_strains [f1, f2] =
      .ok ([(replaceChar f1.simDir '_' ':', [(f1.runDir, ⟨f2, e2, r⟩)])], []) ∧
    look_for_existing_strains [f2, f1] =
      .ok ([(replaceChar f1.simDir '_' ':', [(f1.runDir, ⟨f1, e1, r⟩)])], []) := by
  constructor
  · simp [look_for_existing_strains, lookFold, lookProcess, liftOpt,
      hsim, hrun, h1, h2, hr1, hr2, lt_irrefl]
  · simp [look_for_existing_strains, lookFold, lookProcess, liftOpt,
      hsim, hrun, h1, h2, hr1, hr2, lt_irrefl]

/-- Witness for C9: equal radii 100; each order keeps its later file. -/
theorem claim9_witness :
    look_for_existing_strains
      [⟨"BAM_0001", "R01", "Rh_l2_m2_r00100", ["id_eccentricity 0.01"]⟩,
       ⟨"BAM_0001", "R01", "Rh_alt_xx_r00100", ["id_eccentricity 0.02"]⟩] =
      .ok ([("BAM:0001", [("R01",
        ⟨⟨"BAM_0001", "R01", "Rh_alt_xx_r00100", ["id_eccentricity 0.02"]⟩,
         .num (mkRat 2 100), 100⟩)])], []) ∧
    look_for_existing_strains
      [⟨"BAM_0001", "R01", "Rh_alt_xx_r00100", ["id_eccentricity 0.02"]⟩,
       ⟨"BAM_0001", "R01", "Rh_l2_m2_r00100", ["id_eccentricity 0.01"]⟩] =
      .ok ([("BAM:0001", [("R01",
        ⟨⟨"BAM_0001", "R01", "Rh_l2_m2_r00100", ["id_eccentricity 0.01"]⟩,
         .num (mkRat 1 100), 100⟩)])], []) := by
  have h := claim9_equal_radius_later_wins
    ⟨"BAM_0001", "R01", "Rh_l2_m2_r00100", ["id_eccentricity 0.01"]⟩
    ⟨"BAM_0001", "R01", "Rh_alt_xx_r00100", ["id_eccentricity 0.02"]⟩
    (.num (mkRat 1 100)) (.num (mkRat 2 100)) 100
    (by decide) (by decide) (by decide) (by decide) (by decide) (by decide)
  exact ⟨h.1.trans (by decide), h.2.trans (by decide)⟩

theorem alFind_alUpdate_self {α : Type} (l : List (String × α)) (k : String)
    (v : α) : alFind (alUpdate l k v) k = some v := by
  induction l with
  | nil => simp
  | cons p l ih =>
    by_cases hp : p.1 = k
    · have hany : ((p :: l).any (fun q => q.1 = k)) = true := by
        simp [List.any_cons, hp]
      simp [alUpdate, hany, alFind, List.find?_cons, hp]
    · have hstep : alUpdate (p :: l) k v = p :: alUpdate l k v := by
        by_cases hl : (l.any (fun q => q.1 = k)) = true
        · simp [alUpdate, List.any_cons, hp, hl]
        · simp [alUpdate, List.any_cons, hp, hl]
      rw [hstep]
      rw [alFind_cons_ne _ _ _ hp]
      exact ih

/-- A successful `download_strains` iteration leaves `skey` present in the
`downloaded` dictionary (it was present already, or the new record was just
inserted). -/
theorem downloadOne_mem (env : Env) (d : Downloaded) (k : String)
    (kh ov : Bool) (d1 : Downloaded) (effs : List Effect)
    (h : downloadOne env d k kh ov = .ok (d1, effs)) :
    (alFind d1 k).isSome = true := by
  unfold downloadOne at h
  split at h
  case isTrue hc =>
    simp only [Except.ok.injEq, Prod.mk.injEq] at h
    obtain ⟨h1, _⟩ := h
    subst h1
    exact (Bool.and_eq_true _ _ |>.mp hc).2
  case isFalse hc =>
    cases hsel : get_runkey_lowest_eccentricity (env.runs k) with
    | error e => rw [hsel] at h; simp at h
    | ok p =>
      rw [hsel] at h
      obtain ⟨runkey, ecc⟩ := p
      simp only [ok_bind] at h
      cases hext : get_highest_r_extraction (env.channels k runkey) with
      | error e => rw [hext] at h; simp at h
      | ok p2 =>
        rw [hext] at h
        obtain ⟨rk2, rext⟩ := p2
        simp only [ok_bind, Except.ok.injEq, Prod.mk.injEq] at h
        obtain ⟨h1, _⟩ := h
        subst h1
        simp [alFind_alUpdate_self]

/-- Claim C7: `download_strains` without overwrite is idempotent — a key
already in `downloaded` is skipped with no effects and no index change, and
after any successful call a second call on the same key does nothing and
leaves the record intact. -/
theorem claim7_download_idempotent (env : Env) (d : Downloaded) (k : String)
    (kh : Bool) :
    ((alFind d k).isSome = true →
      download_strains env d [k] kh false = .ok (d, [])) ∧
    (∀ (d1 : Downloaded) (effs : List Effect),
      download_strains env d [k] kh false = .ok (d1, effs) →
      download_strains env d1 [k] kh false = .ok (d1, [])) := by
  have hskip : ∀ d' : Downloaded, (alFind d' k).isSome = true →
      download_strains env d' [k] kh false = .ok (d', []) := by
    intro d' hmem
    unfold download_strains downloadOne
    simp [hmem, download_strains]
  refine ⟨hskip d, ?_⟩
  intro d1 effs h
  unfold download_strains at h
  cases hone : downloadOne env d k kh false with
  | error e => rw [hone] at h; simp at h
  | ok p =>
    rw [hone] at h
    obtain ⟨dd, ee⟩ := p
    simp only [ok_bind, download_strains, pure_ok, Except.ok.injEq,
      Prod.mk.injEq] at h
    obtain ⟨h1, _⟩ := h
    rw [h1] at hone
    exact hskip d1 (downloadOne_mem env d k kh false d1 ee hone)

/-- Witness for C7: a fresh download of key `SIM` followed by a second call,
which performs nothing. -/
theorem claim7_witness :
    download_strains
      ⟨fun _ => [("R01", some "0.1")], fun _ _ => ["Rh_l2_m2_r00100.txt"],
       fun _ _ => "p"⟩
      [("SIM", [("R01", ⟨"p/Rh_l2_m2_r00100.txt", .num (mkRat 1 10), 100⟩)])]
      ["SIM"] false false =
      .ok ([("SIM", [("R01",
        ⟨"p/Rh_l2_m2_r00100.txt", .num (mkRat 1 10), 100⟩)])], []) := by
  have h := (claim7_download_idempotent
    ⟨fun _ => [("R01", some "0.1")], fun _ _ => ["Rh_l2_m2_r00100.txt"],
     fun _ _ => "p"⟩
    [] "SIM" false).2
    [("SIM", [("R01", ⟨"p/Rh_l2_m2_r00100.txt", .num (mkRat 1 10), 100⟩)])]
    [.sync "SIM", .write "p/Rh_l2_m2_r00100.txt", .cleanH5 "SIM"]
    (by decide)
  exact h

/-- Claim C10: `get_runkey_lowest_eccentricity` pops the reference run only
from a copy of the run dictionary: on the heap model, the dictionary the
reference `r` points to is unchanged by the call, so the underlying run
collection has the same entries (hence the same keys) before and after. -/
theorem claim10_no_mutation (h : Heap) (r : ℕ) (hr : r < h.length) :
    (getRunkeyLowestEccOnHeap h r).1[r]? = h[r]? := by
  cases hfind : dictFind h[r] "R01" with
  | none =>
    simp [getRunkeyLowestEccOnHeap, heapCopy, heapPop, List.getD, hfind,
      List.getElem?_append, hr]
  | some v =>
    simp [getRunkeyLowestEccOnHeap, heapCopy, heapPop, List.getD, hfind,
      List.getElem?_append, List.getElem?_set, hr, Ne.symm (Nat.ne_of_lt hr)]

/-- Witness for C10: a two-run dictionary at reference 0 is intact after the
call. -/
theorem claim10_witness :
    (0 : ℕ) < ([[("R01", some "0.1"), ("R02", some "0.2")]] : Heap).length ∧
    (getRunkeyLowestEccOnHeap [[("R01", some "0.1"), ("R02", some "0.2")]] 0).1[0]? =
      ([[("R01", some "0.1"), ("R02", some "0.2")]] : Heap)[0]? :=
  ⟨by decide, claim10_no_mutation _ 0 (by decide)⟩

end CoreWaEasy
